import Mathlib

/-!
Verification of the hook-dispatch core of `src/hook/manager.cpp`
(Apache Mesos `HookManager`): the extension registry (`initialize`,
`unload`, `hooksAvailable`), the sequential decorator dispatches
(task labels, executor environment, task status, resources,
attributes), the fire-and-forget notification dispatches, and the
asynchronous docker-environment fan-out/fan-in dispatch.

The protobuf payload types are embedded as Lean structures carrying the
fields the manager touches plus an opaque `rest : Nat` standing for all
remaining protobuf fields (the manager never reads or writes them).
`Result<T>` from stout is embedded as `HookResult`, `Try<T>` as
`Except String`, and a `process::Future<T>` that has completed as
`Except String T` (failed future / resolved value).  The global
`LinkedHashMap<string, Hook*> availableHooks` is embedded as an
insertion-ordered association list that is passed and returned
explicitly.
-/

/-- A protobuf `Label`: a key with an optional value. -/
structure Label where
  key : String
  value : Option String
deriving DecidableEq, Repr

/-- Protobuf `Labels`: a wrapper around a repeated `Label` field. -/
structure Labels where
  labels : List Label
deriving DecidableEq, Repr

/-- Protobuf `Environment.Variable`: a name/value pair. -/
structure EnvironmentVariable where
  name : String
  value : String
deriving DecidableEq, Repr

/-- Protobuf `Environment`: a wrapper around the repeated
`Environment.Variable` field (the proto accessor `variables()`; named
`vars` here because `variables` is reserved in Lean). -/
structure Environment where
  vars : List EnvironmentVariable
deriving DecidableEq, Repr

/-- Protobuf `CommandInfo`: the manager only touches its `environment` field;
`rest` stands for every other field. -/
structure CommandInfo where
  environment : Environment
  rest : Nat
deriving DecidableEq, Repr

/-- Protobuf `ExecutorInfo`: the manager only touches `command.environment`. -/
structure ExecutorInfo where
  command : CommandInfo
  rest : Nat
deriving DecidableEq, Repr

/-- Protobuf `TaskInfo`: the manager only touches its `labels` field. -/
structure TaskInfo where
  labels : Labels
  rest : Nat
deriving DecidableEq, Repr

/-- Protobuf `FrameworkInfo`: opaque to the manager. -/
structure FrameworkInfo where
  rest : Nat
deriving DecidableEq, Repr

/-- Protobuf `Resource`: opaque content, only copied wholesale. -/
structure Resource where
  name : String
  value : Nat
deriving DecidableEq, Repr

/-- Protobuf repeated `Resource` field (`Resources` in Mesos). -/
structure Resources where
  resources : List Resource
deriving DecidableEq, Repr

/-- A Mesos `Attribute`: opaque content, only copied wholesale. -/
structure Attribute where
  name : String
  value : String
deriving DecidableEq, Repr

/-- Mesos `Attributes`: a collection of `Attribute`. -/
structure Attributes where
  attributes : List Attribute
deriving DecidableEq, Repr

/-- Protobuf `SlaveInfo`: the manager touches `resources` and `attributes`. -/
structure SlaveInfo where
  resources : Resources
  attributes : Attributes
  rest : Nat
deriving DecidableEq, Repr

/-- Protobuf `FrameworkID`. -/
structure FrameworkID where
  value : String
deriving DecidableEq, Repr

/-- Protobuf `ContainerID`. -/
structure ContainerID where
  value : String
deriving DecidableEq, Repr

/-- Protobuf `ContainerStatus`: opaque content, only copied wholesale. -/
structure ContainerStatus where
  rest : Nat
deriving DecidableEq, Repr

/-- Protobuf `TaskStatus`: the status decorator touches the optional
`labels` and `container_status` fields (`has_labels()` /
`has_container_status()` are `Option.isSome` here); `rest` stands for
every other field. -/
structure TaskStatus where
  labels : Option Labels
  container_status : Option ContainerStatus
  rest : Nat
deriving DecidableEq, Repr

/-- Protobuf `ContainerInfo`: opaque to the manager. -/
structure ContainerInfo where
  rest : Nat
deriving DecidableEq, Repr

/-- A completed environment map `map<string, string>`, read through lookup. -/
abbrev EnvMap := String → Option String

/-- Stout `Result<T>`: a value, an explicit absence (`None`,
"no opinion"), or an error message. -/
inductive HookResult (α : Type) where
  | none : HookResult α
  | some (value : α) : HookResult α
  | error (message : String) : HookResult α
deriving DecidableEq, Repr

/-- The `mesos::Hook` module interface: one method per lifecycle event,
as called by `HookManager`.  A hook that does not implement an event
returns `HookResult.none` / `Except.ok` there. -/
structure Hook where
  masterLaunchTaskLabelDecorator :
    TaskInfo → FrameworkInfo → SlaveInfo → HookResult Labels
  masterSlaveLostHook : SlaveInfo → Except String Unit
  slaveRunTaskLabelDecorator :
    TaskInfo → ExecutorInfo → FrameworkInfo → SlaveInfo → HookResult Labels
  slaveExecutorEnvironmentDecorator : ExecutorInfo → HookResult Environment
  slavePreLaunchDockerEnvironmentDecorator :
    Option TaskInfo → ExecutorInfo → String → String → String →
      Option EnvMap → Except String (Option Environment)
  slavePreLaunchDockerHook :
    ContainerInfo → CommandInfo → Option TaskInfo → ExecutorInfo →
      String → String → String → Option Resources → Option EnvMap →
      Except String Unit
  slavePostFetchHook : ContainerID → String → Except String Unit
  slaveRemoveExecutorHook : FrameworkInfo → ExecutorInfo → Except String Unit
  slaveTaskStatusDecorator : FrameworkID → TaskStatus → HookResult TaskStatus
  slaveResourcesDecorator : SlaveInfo → HookResult Resources
  slaveAttributesDecorator : SlaveInfo → HookResult Attributes

/-- The global `LinkedHashMap<string, Hook*> availableHooks`: an
insertion-ordered name-to-hook map, embedded as the list of its entries
in insertion order (iteration over `keys()` is iteration over this
list). -/
abbrev HookRegistry := List (String × Hook)

/-- `availableHooks.contains(name)`. -/
def containsHook (availableHooks : HookRegistry) (name : String) : Bool :=
  availableHooks.any (fun entry => entry.1 == name)

/-- `availableHooks.erase(name)`: removes the entry for `name`. -/
def eraseHook (availableHooks : HookRegistry) (name : String) : HookRegistry :=
  availableHooks.filter (fun entry => entry.1 != name)

/-- Stout `strings::split` on one delimiter character, on the character
list of the string: empty tokens are kept, so the empty input yields
one empty token and a leading, trailing or doubled delimiter yields an
empty token at the matching position. -/
def splitChars (delim : Char) : List Char → List (List Char)
  | [] => [[]]
  | c :: rest =>
    match splitChars delim rest with
    | [] => [[]]
    | tok :: toks =>
      if c = delim then [] :: tok :: toks else (c :: tok) :: toks

/-- `strings::split(s, delim)` with a one-character delimiter. -/
def stringsSplit (s : String) (delim : Char) : List String :=
  (splitChars delim s.data).map (fun cs => String.mk cs)

/-- The external `ModuleManager` collaborator, at its interface
boundary: `contains<Hook>(name)` and `create<Hook>(name)`. -/
structure ModuleManager where
  contains : String → Bool
  create : String → Except String Hook

/-- The loop body of `HookManager::initialize` over the split name
list: for each name in order, fail if already loaded, fail if the
module manager has no such module, fail if instantiation fails,
otherwise append the created hook to `availableHooks`.  The registry
accumulated so far is returned even on failure (the C++ code mutates
the global map in place and returns early: no rollback). -/
def HookManager.initializeNames (mm : ModuleManager) :
    HookRegistry → List String → HookRegistry × Except String Unit
  | availableHooks, [] => (availableHooks, Except.ok ())
  | availableHooks, hook :: rest =>
    if containsHook availableHooks hook then
      (availableHooks,
        Except.error ("Hook module \x27" ++ hook ++ "\x27 already loaded"))
    else if ¬ mm.contains hook then
      (availableHooks,
        Except.error ("No hook module named \x27" ++ hook ++ "\x27 available"))
    else
      match mm.create hook with
      | Except.error e =>
        (availableHooks,
          Except.error
            ("Failed to instantiate hook module \x27" ++ hook ++ "\x27: " ++ e))
      | Except.ok module =>
        HookManager.initializeNames mm (availableHooks ++ [(hook, module)]) rest

/-- `HookManager::initialize(hookList)`: split the comma-separated list
and load each name in order. -/
def HookManager.initialize (mm : ModuleManager) (availableHooks : HookRegistry)
    (hookList : String) : HookRegistry × Except String Unit :=
  HookManager.initializeNames mm availableHooks (stringsSplit hookList ',')

/-- `HookManager::unload(hookName)`: error if not loaded, otherwise
remove the entry. -/
def HookManager.unload (availableHooks : HookRegistry) (hookName : String) :
    HookRegistry × Except String Unit :=
  if ¬ containsHook availableHooks hookName then
    (availableHooks,
      Except.error
        ("Error unloading hook module \x27" ++ hookName ++
          "\x27: module not loaded"))
  else
    (eraseHook availableHooks hookName, Except.ok ())

/-- `HookManager::hooksAvailable()`. -/
def HookManager.hooksAvailable (availableHooks : HookRegistry) : Bool :=
  !availableHooks.isEmpty

/-- One iteration of the `masterLaunchTaskLabelDecorator` loop: invoke
the hook on the current task info; a returned value replaces the
labels, `None` and an error (logged) leave the task info unchanged. -/
def masterLaunchTaskLabelStep (frameworkInfo : FrameworkInfo)
    (slaveInfo : SlaveInfo) (taskInfo_ : TaskInfo) (entry : String × Hook) :
    TaskInfo :=
  match entry.2.masterLaunchTaskLabelDecorator taskInfo_ frameworkInfo slaveInfo with
  | HookResult.some result => { taskInfo_ with labels := result }
  | HookResult.none => taskInfo_
  | HookResult.error _ => taskInfo_

/-- `HookManager::masterLaunchTaskLabelDecorator`: fold the per-hook
step over the registry in insertion order, starting from a mutable copy
of the task info, and return its final labels. -/
def HookManager.masterLaunchTaskLabelDecorator (availableHooks : HookRegistry)
    (taskInfo : TaskInfo) (frameworkInfo : FrameworkInfo)
    (slaveInfo : SlaveInfo) : Labels :=
  (availableHooks.foldl (masterLaunchTaskLabelStep frameworkInfo slaveInfo)
    taskInfo).labels

/-- One iteration of the `slaveRunTaskLabelDecorator` loop. -/
def slaveRunTaskLabelStep (executorInfo : ExecutorInfo)
    (frameworkInfo : FrameworkInfo) (slaveInfo : SlaveInfo)
    (taskInfo_ : TaskInfo) (entry : String × Hook) : TaskInfo :=
  match entry.2.slaveRunTaskLabelDecorator taskInfo_ executorInfo frameworkInfo
      slaveInfo with
  | HookResult.some result => { taskInfo_ with labels := result }
  | HookResult.none => taskInfo_
  | HookResult.error _ => taskInfo_

/-- `HookManager::slaveRunTaskLabelDecorator`. -/
def HookManager.slaveRunTaskLabelDecorator (availableHooks : HookRegistry)
    (taskInfo : TaskInfo) (executorInfo : ExecutorInfo)
    (frameworkInfo : FrameworkInfo) (slaveInfo : SlaveInfo) : Labels :=
  (availableHooks.foldl (slaveRunTaskLabelStep executorInfo frameworkInfo
    slaveInfo) taskInfo).labels

/-- One iteration of the `slaveExecutorEnvironmentDecorator` loop: a
returned value replaces `command.environment`, `None` and an error
leave the executor info unchanged. -/
def slaveExecutorEnvironmentStep (executorInfo : ExecutorInfo)
    (entry : String × Hook) : ExecutorInfo :=
  match entry.2.slaveExecutorEnvironmentDecorator executorInfo with
  | HookResult.some result =>
    { executorInfo with
        command := { executorInfo.command with environment := result } }
  | HookResult.none => executorInfo
  | HookResult.error _ => executorInfo

/-- `HookManager::slaveExecutorEnvironmentDecorator`. -/
def HookManager.slaveExecutorEnvironmentDecorator
    (availableHooks : HookRegistry) (executorInfo : ExecutorInfo) :
    Environment :=
  ((availableHooks.foldl slaveExecutorEnvironmentStep
    executorInfo).command).environment

/-- One iteration of the `slaveTaskStatusDecorator` loop: a returned
status replaces the `labels` field only when it is set
(`has_labels()`), and the `container_status` field only when it is set
(`has_container_status()`); `None` and an error leave the status
unchanged. -/
def slaveTaskStatusStep (frameworkId : FrameworkID) (status : TaskStatus)
    (entry : String × Hook) : TaskStatus :=
  match entry.2.slaveTaskStatusDecorator frameworkId status with
  | HookResult.some result =>
    let status1 :=
      if result.labels.isSome then { status with labels := result.labels }
      else status
    if result.container_status.isSome then
      { status1 with container_status := result.container_status }
    else status1
  | HookResult.none => status
  | HookResult.error _ => status

/-- `HookManager::slaveTaskStatusDecorator`. -/
def HookManager.slaveTaskStatusDecorator (availableHooks : HookRegistry)
    (frameworkId : FrameworkID) (status : TaskStatus) : TaskStatus :=
  availableHooks.foldl (slaveTaskStatusStep frameworkId) status

/-- One iteration of the `slaveResourcesDecorator` loop. -/
def slaveResourcesStep (slaveInfo_ : SlaveInfo) (entry : String × Hook) :
    SlaveInfo :=
  match entry.2.slaveResourcesDecorator slaveInfo_ with
  | HookResult.some result => { slaveInfo_ with resources := result }
  | HookResult.none => slaveInfo_
  | HookResult.error _ => slaveInfo_

/-- `HookManager::slaveResourcesDecorator`. -/
def HookManager.slaveResourcesDecorator (availableHooks : HookRegistry)
    (slaveInfo : SlaveInfo) : Resources :=
  (availableHooks.foldl slaveResourcesStep slaveInfo).resources

/-- One iteration of the `slaveAttributesDecorator` loop. -/
def slaveAttributesStep (slaveInfo_ : SlaveInfo) (entry : String × Hook) :
    SlaveInfo :=
  match entry.2.slaveAttributesDecorator slaveInfo_ with
  | HookResult.some result => { slaveInfo_ with attributes := result }
  | HookResult.none => slaveInfo_
  | HookResult.error _ => slaveInfo_

/-- `HookManager::slaveAttributesDecorator`. -/
def HookManager.slaveAttributesDecorator (availableHooks : HookRegistry)
    (slaveInfo : SlaveInfo) : Attributes :=
  (availableHooks.foldl slaveAttributesStep slaveInfo).attributes

/-- `HookManager::masterSlaveLostHook`: invoke every hook in order;
collect the warning log lines produced for failing hooks (the only
observable effect of this fire-and-forget dispatch). -/
def HookManager.masterSlaveLostHook (availableHooks : HookRegistry)
    (slaveInfo : SlaveInfo) : List String :=
  availableHooks.foldl (fun warnings entry =>
    match entry.2.masterSlaveLostHook slaveInfo with
    | Except.error e =>
      warnings ++
        ["Master agent-lost hook failed for module \x27" ++ entry.1 ++
          "\x27: " ++ e]
    | Except.ok _ => warnings) []

/-- `HookManager::slavePreLaunchDockerHook` (fire-and-forget). -/
def HookManager.slavePreLaunchDockerHook (availableHooks : HookRegistry)
    (containerInfo : ContainerInfo) (commandInfo : CommandInfo)
    (taskInfo : Option TaskInfo) (executorInfo : ExecutorInfo)
    (containerName sandboxDirectory mappedDirectory : String)
    (resources : Option Resources) (env : Option EnvMap) : List String :=
  availableHooks.foldl (fun warnings entry =>
    match entry.2.slavePreLaunchDockerHook containerInfo commandInfo taskInfo
        executorInfo containerName sandboxDirectory mappedDirectory resources
        env with
    | Except.error e =>
      warnings ++
        ["Agent pre launch docker hook failed for module \x27" ++ entry.1 ++
          "\x27: " ++ e]
    | Except.ok _ => warnings) []

/-- `HookManager::slavePostFetchHook` (fire-and-forget). -/
def HookManager.slavePostFetchHook (availableHooks : HookRegistry)
    (containerId : ContainerID) (directory : String) : List String :=
  availableHooks.foldl (fun warnings entry =>
    match entry.2.slavePostFetchHook containerId directory with
    | Except.error e =>
      warnings ++
        ["Agent post fetch hook failed for module \x27" ++ entry.1 ++
          "\x27: " ++ e]
    | Except.ok _ => warnings) []

/-- `HookManager::slaveRemoveExecutorHook` (fire-and-forget). -/
def HookManager.slaveRemoveExecutorHook (availableHooks : HookRegistry)
    (frameworkInfo : FrameworkInfo) (executorInfo : ExecutorInfo) :
    List String :=
  availableHooks.foldl (fun warnings entry =>
    match entry.2.slaveRemoveExecutorHook frameworkInfo executorInfo with
    | Except.error e =>
      warnings ++
        ["Agent remove executor hook failed for module \x27" ++ entry.1 ++
          "\x27: " ++ e]
    | Except.ok _ => warnings) []

/-- `process::collect` on a list of completed futures: succeeds with the
list of values when every future succeeded, fails when any future
failed. -/
def collectFutures :
    List (Except String (Option Environment)) →
      Except String (List (Option Environment))
  | [] => Except.ok []
  | future :: rest =>
    match future with
    | Except.error e => Except.error e
    | Except.ok value =>
      match collectFutures rest with
      | Except.error e => Except.error e
      | Except.ok values => Except.ok (value :: values)

/-- `environment[name] = value` on a `map<string, string>`:
insert-or-assign. -/
def envInsert (environment : EnvMap) (name value : String) : EnvMap :=
  fun k => if k = name then Option.some value else environment k

/-- The inner loop of the combine step: insert every variable of one
hook result into the shared map. -/
def envFoldInsert (environment : EnvMap)
    (vars : List EnvironmentVariable) : EnvMap :=
  vars.foldl (fun m v => envInsert m v.name v.value) environment

/-- The fan-in combine step of
`slavePreLaunchDockerEnvironmentDecorator`: iterate the completed
results in registry order, skip absent results, and insert each present
result's variables into one shared map (a later insert for the same
name overwrites). -/
def combineEnvironments (results : List (Option Environment)) : EnvMap :=
  results.foldl (fun environment result =>
    match result with
    | Option.none => environment
    | Option.some env => envFoldInsert environment env.vars)
    (fun _ => Option.none)

/-- `HookManager::slavePreLaunchDockerEnvironmentDecorator`: start one
call per hook in registry order, collect all of them (failing if any
failed), then combine the results into one map. -/
def HookManager.slavePreLaunchDockerEnvironmentDecorator
    (availableHooks : HookRegistry) (taskInfo : Option TaskInfo)
    (executorInfo : ExecutorInfo)
    (containerName sandboxDirectory mappedDirectory : String)
    (env : Option EnvMap) : Except String EnvMap :=
  let futures := availableHooks.map (fun entry =>
    entry.2.slavePreLaunchDockerEnvironmentDecorator taskInfo executorInfo
      containerName sandboxDirectory mappedDirectory env)
  match collectFutures futures with
  | Except.error e => Except.error e
  | Except.ok results => Except.ok (combineEnvironments results)

/-- Specification-side lookup for one result's variable list: the value
of the *last* variable with the given name, if any ("last takes
priority" within one hook result). -/
def envLookupLast : List EnvironmentVariable → String → Option String
  | [], _ => Option.none
  | v :: vs, k =>
    match envLookupLast vs k with
    | Option.some w => Option.some w
    | Option.none => if v.name = k then Option.some v.value else Option.none

/-- Specification-side lookup across the per-hook results in registry
order: the binding of the given name made by the *latest* present
result that defines it ("the later extension in registry order wins"). -/
def resultsLookupLast : List (Option Environment) → String → Option String
  | [], _ => Option.none
  | result :: results, k =>
    match resultsLookupLast results k with
    | Option.some w => Option.some w
    | Option.none =>
      match result with
      | Option.none => Option.none
      | Option.some env => envLookupLast env.vars k

theorem envFoldInsert_lookup (vs : List EnvironmentVariable) (m : EnvMap)
    (k : String) :
    envFoldInsert m vs k =
      match envLookupLast vs k with
      | Option.some w => Option.some w
      | Option.none => m k := by
  induction vs generalizing m with
  | nil => simp [envFoldInsert, envLookupLast]
  | cons v vs ih =>
    have hstep : envFoldInsert m (v :: vs) =
        envFoldInsert (envInsert m v.name v.value) vs := rfl
    rw [hstep, ih]
    cases h : envLookupLast vs k with
    | some w => simp [envLookupLast, h]
    | none =>
      simp only [envLookupLast, h, envInsert]
      by_cases hk : v.name = k
      · simp [hk]
      · have hk2 : ¬ k = v.name := fun h2 => hk h2.symm
        simp [hk, hk2]

theorem combineFold_lookup (results : List (Option Environment)) (m : EnvMap)
    (k : String) :
    (results.foldl (fun environment result =>
      match result with
      | Option.none => environment
      | Option.some env => envFoldInsert environment env.vars) m) k =
      match resultsLookupLast results k with
      | Option.some w => Option.some w
      | Option.none => m k := by
  induction results generalizing m with
  | nil => simp [resultsLookupLast]
  | cons r results ih =>
    cases r with
    | none =>
      rw [List.foldl_cons, ih]
      cases h : resultsLookupLast results k with
      | some w => simp [resultsLookupLast, h]
      | none => simp [resultsLookupLast, h]
    | some env =>
      rw [List.foldl_cons, ih]
      cases h : resultsLookupLast results k with
      | some w => simp [resultsLookupLast, h]
      | none =>
        simp only [resultsLookupLast, h, envFoldInsert_lookup]

theorem combineEnvironments_lookup (results : List (Option Environment))
    (k : String) :
    combineEnvironments results k = resultsLookupLast results k := by
  rw [combineEnvironments, combineFold_lookup]
  cases resultsLookupLast results k <;> rfl

theorem collectFutures_map_ok (results : List (Option Environment)) :
    collectFutures (results.map Except.ok) = Except.ok results := by
  induction results with
  | nil => rfl
  | cons r rest ih => simp [collectFutures, ih]

theorem collectFutures_error_of_mem (futures : List (Except String (Option Environment)))
    (e : String) (h : Except.error e ∈ futures) :
    ∃ e2, collectFutures futures = Except.error e2 := by
  induction futures with
  | nil => cases h
  | cons f rest ih =>
    cases f with
    | error e1 => exact ⟨e1, rfl⟩
    | ok v =>
      cases h with
      | tail _ hmem =>
        obtain ⟨e2, he⟩ := ih hmem
        exact ⟨e2, by simp [collectFutures, he]⟩

/-- A hook implementing no event: every decorator returns `None` and
every notification succeeds. -/
def noOpinionHook : Hook where
  masterLaunchTaskLabelDecorator := fun _ _ _ => HookResult.none
  masterSlaveLostHook := fun _ => Except.ok ()
  slaveRunTaskLabelDecorator := fun _ _ _ _ => HookResult.none
  slaveExecutorEnvironmentDecorator := fun _ => HookResult.none
  slavePreLaunchDockerEnvironmentDecorator := fun _ _ _ _ _ _ =>
    Except.ok Option.none
  slavePreLaunchDockerHook := fun _ _ _ _ _ _ _ _ _ => Except.ok ()
  slavePostFetchHook := fun _ _ => Except.ok ()
  slaveRemoveExecutorHook := fun _ _ => Except.ok ()
  slaveTaskStatusDecorator := fun _ _ => HookResult.none
  slaveResourcesDecorator := fun _ => HookResult.none
  slaveAttributesDecorator := fun _ => HookResult.none

/-- A hook whose master label decorator always replaces the labels. -/
def setLabelsHook (l : Labels) : Hook :=
  { noOpinionHook with
      masterLaunchTaskLabelDecorator := fun _ _ _ => HookResult.some l }

/-- A hook whose master label decorator always errors. -/
def errorLabelsHook (msg : String) : Hook :=
  { noOpinionHook with
      masterLaunchTaskLabelDecorator := fun _ _ _ => HookResult.error msg }

/-- A hook with a fixed docker-environment decorator outcome. -/
def dockerEnvHook (result : Except String (Option Environment)) : Hook :=
  { noOpinionHook with
      slavePreLaunchDockerEnvironmentDecorator := fun _ _ _ _ _ _ => result }

/-- A hook with a fixed task-status decorator outcome. -/
def statusHook (result : HookResult TaskStatus) : Hook :=
  { noOpinionHook with slaveTaskStatusDecorator := fun _ _ => result }

/-- A module manager knowing no modules. -/
def emptyModuleManager : ModuleManager where
  contains := fun _ => false
  create := fun _ => Except.error "no modules"

def emptyFrameworkInfo : FrameworkInfo := ⟨0⟩

def emptySlaveInfo : SlaveInfo := ⟨⟨[]⟩, ⟨[]⟩, 0⟩

def emptyTaskInfo : TaskInfo := ⟨⟨[]⟩, 0⟩

def emptyExecutorInfo : ExecutorInfo := ⟨⟨⟨[]⟩, 0⟩, 0⟩

def labelsX1 : Labels := ⟨[⟨"X", Option.some "1"⟩]⟩

def labelsX2 : Labels := ⟨[⟨"X", Option.some "2"⟩]⟩

/-- Claim C8: with an empty registry every sequential decorator
dispatch returns its input payload's governed field unchanged, every
notification dispatch is a no-op (no hook invoked, no warning logged),
and the asynchronous docker-environment dispatch succeeds with the
empty map. -/
theorem C8_empty_registry_noop :
    (∀ t f s, HookManager.masterLaunchTaskLabelDecorator [] t f s = t.labels) ∧
    (∀ t e f s,
      HookManager.slaveRunTaskLabelDecorator [] t e f s = t.labels) ∧
    (∀ e, HookManager.slaveExecutorEnvironmentDecorator [] e =
      e.command.environment) ∧
    (∀ fid st, HookManager.slaveTaskStatusDecorator [] fid st = st) ∧
    (∀ s, HookManager.slaveResourcesDecorator [] s = s.resources) ∧
    (∀ s, HookManager.slaveAttributesDecorator [] s = s.attributes) ∧
    (∀ s, HookManager.masterSlaveLostHook [] s = []) ∧
    (∀ ci cmd t e cn sd md r env,
      HookManager.slavePreLaunchDockerHook [] ci cmd t e cn sd md r env = []) ∧
    (∀ cid d, HookManager.slavePostFetchHook [] cid d = []) ∧
    (∀ f e, HookManager.slaveRemoveExecutorHook [] f e = []) ∧
    (∀ t e cn sd md env,
      HookManager.slavePreLaunchDockerEnvironmentDecorator [] t e cn sd md env =
        Except.ok (fun _ => Option.none)) := by
  refine ⟨?_, ?_, ?_, ?_, ?_, ?_, ?_, ?_, ?_, ?_, ?_⟩ <;> intros <;> rfl

/-- Claim C1: every sequential decorator dispatch folds its per-hook
step over the registry in insertion order, each hook receiving the
current (possibly already modified) payload; a `None` result leaves the
payload unchanged and a returned value overwrites the governed
sub-field; with E1 always setting the labels to `l1` and a later E2
returning no opinion the dispatch returns `l1`, and with E2 always
setting `l2` it returns `l2` (last registered wins). -/
theorem C1_sequential_decorator_fold :
    (∀ t f s n1 n2 h1 h2 l1,
      (∀ t2, Hook.masterLaunchTaskLabelDecorator h1 t2 f s = HookResult.some l1) →
      (∀ t2, Hook.masterLaunchTaskLabelDecorator h2 t2 f s = HookResult.none) →
      HookManager.masterLaunchTaskLabelDecorator [(n1, h1), (n2, h2)] t f s = l1) ∧
    (∀ t f s n1 n2 h1 h2 l1 l2,
      (∀ t2, Hook.masterLaunchTaskLabelDecorator h1 t2 f s = HookResult.some l1) →
      (∀ t2, Hook.masterLaunchTaskLabelDecorator h2 t2 f s = HookResult.some l2) →
      HookManager.masterLaunchTaskLabelDecorator [(n1, h1), (n2, h2)] t f s = l2) ∧
    (∀ reg n h t f s,
      HookManager.masterLaunchTaskLabelDecorator ((n, h) :: reg) t f s =
        HookManager.masterLaunchTaskLabelDecorator reg
          (masterLaunchTaskLabelStep f s t (n, h)) f s) ∧
    (∀ reg n h t e f s,
      HookManager.slaveRunTaskLabelDecorator ((n, h) :: reg) t e f s =
        HookManager.slaveRunTaskLabelDecorator reg
          (slaveRunTaskLabelStep e f s t (n, h)) e f s) ∧
    (∀ reg n h e,
      HookManager.slaveExecutorEnvironmentDecorator ((n, h) :: reg) e =
        HookManager.slaveExecutorEnvironmentDecorator reg
          (slaveExecutorEnvironmentStep e (n, h))) ∧
    (∀ reg n h fid st,
      HookManager.slaveTaskStatusDecorator ((n, h) :: reg) fid st =
        HookManager.slaveTaskStatusDecorator reg fid
          (slaveTaskStatusStep fid st (n, h))) ∧
    (∀ reg n h s,
      HookManager.slaveResourcesDecorator ((n, h) :: reg) s =
        HookManager.slaveResourcesDecorator reg (slaveResourcesStep s (n, h))) ∧
    (∀ reg n h s,
      HookManager.slaveAttributesDecorator ((n, h) :: reg) s =
        HookManager.slaveAttributesDecorator reg (slaveAttributesStep s (n, h))) ∧
    (∀ t f s n h, Hook.masterLaunchTaskLabelDecorator h t f s = HookResult.none →
      masterLaunchTaskLabelStep f s t (n, h) = t) ∧
    (∀ t f s n h l, Hook.masterLaunchTaskLabelDecorator h t f s = HookResult.some l →
      masterLaunchTaskLabelStep f s t (n, h) = { t with labels := l }) ∧
    (∀ t e f s n h, Hook.slaveRunTaskLabelDecorator h t e f s = HookResult.none →
      slaveRunTaskLabelStep e f s t (n, h) = t) ∧
    (∀ t e f s n h l, Hook.slaveRunTaskLabelDecorator h t e f s = HookResult.some l →
      slaveRunTaskLabelStep e f s t (n, h) = { t with labels := l }) ∧
    (∀ e n h, Hook.slaveExecutorEnvironmentDecorator h e = HookResult.none →
      slaveExecutorEnvironmentStep e (n, h) = e) ∧
    (∀ e n h env, Hook.slaveExecutorEnvironmentDecorator h e = HookResult.some env →
      slaveExecutorEnvironmentStep e (n, h) =
        { e with command := { e.command with environment := env } }) ∧
    (∀ fid st n h, Hook.slaveTaskStatusDecorator h fid st = HookResult.none →
      slaveTaskStatusStep fid st (n, h) = st) ∧
    (∀ s n h, Hook.slaveResourcesDecorator h s = HookResult.none →
      slaveResourcesStep s (n, h) = s) ∧
    (∀ s n h r, Hook.slaveResourcesDecorator h s = HookResult.some r →
      slaveResourcesStep s (n, h) = { s with resources := r }) ∧
    (∀ s n h, Hook.slaveAttributesDecorator h s = HookResult.none →
      slaveAttributesStep s (n, h) = s) ∧
    (∀ s n h a, Hook.slaveAttributesDecorator h s = HookResult.some a →
      slaveAttributesStep s (n, h) = { s with attributes := a }) := by
  refine ⟨?_, ?_, ?_, ?_, ?_, ?_, ?_, ?_, ?_, ?_, ?_, ?_, ?_, ?_, ?_, ?_, ?_, ?_, ?_⟩
  · intro t f s n1 n2 h1 h2 l1 hh1 hh2
    simp [HookManager.masterLaunchTaskLabelDecorator,
      masterLaunchTaskLabelStep, hh1, hh2]
  · intro t f s n1 n2 h1 h2 l1 l2 hh1 hh2
    simp [HookManager.masterLaunchTaskLabelDecorator,
      masterLaunchTaskLabelStep, hh1, hh2]
  · intro reg n h t f s; rfl
  · intro reg n h t e f s; rfl
  · intro reg n h e; rfl
  · intro reg n h fid st; rfl
  · intro reg n h s; rfl
  · intro reg n h s; rfl
  · intro t f s n h hres; simp [masterLaunchTaskLabelStep, hres]
  · intro t f s n h l hres; simp [masterLaunchTaskLabelStep, hres]
  · intro t e f s n h hres; simp [slaveRunTaskLabelStep, hres]
  · intro t e f s n h l hres; simp [slaveRunTaskLabelStep, hres]
  · intro e n h hres; simp [slaveExecutorEnvironmentStep, hres]
  · intro e n h env hres; simp [slaveExecutorEnvironmentStep, hres]
  · intro fid st n h hres; simp [slaveTaskStatusStep, hres]
  · intro s n h hres; simp [slaveResourcesStep, hres]
  · intro s n h r hres; simp [slaveResourcesStep, hres]
  · intro s n h hres; simp [slaveAttributesStep, hres]
  · intro s n h a hres; simp [slaveAttributesStep, hres]

/-- Witness for C1: with E1 setting labels `X=1` and E2 (registered
after E1) setting labels `X=2`, the dispatched result is `X=2`. -/
theorem C1_sequential_decorator_fold_witness :
    HookManager.masterLaunchTaskLabelDecorator
      [("E1", setLabelsHook labelsX1), ("E2", setLabelsHook labelsX2)]
      emptyTaskInfo emptyFrameworkInfo emptySlaveInfo = labelsX2 :=
  C1_sequential_decorator_fold.2.1 emptyTaskInfo emptyFrameworkInfo
    emptySlaveInfo "E1" "E2" (setLabelsHook labelsX1) (setLabelsHook labelsX2)
    labelsX1 labelsX2 (fun _ => rfl) (fun _ => rfl)

/-- Claim C2: in every sequential decorator dispatch an erroring hook
leaves the payload exactly as it was before that hook ran, the
remaining hooks still run against that payload, and the dispatch still
returns an ordinary payload value to the caller. -/
theorem C2_error_leaves_payload_unchanged :
    (∀ t f s n h msg reg,
      Hook.masterLaunchTaskLabelDecorator h t f s = HookResult.error msg →
      masterLaunchTaskLabelStep f s t (n, h) = t ∧
      HookManager.masterLaunchTaskLabelDecorator ((n, h) :: reg) t f s =
        HookManager.masterLaunchTaskLabelDecorator reg t f s) ∧
    (∀ t e f s n h msg reg,
      Hook.slaveRunTaskLabelDecorator h t e f s = HookResult.error msg →
      slaveRunTaskLabelStep e f s t (n, h) = t ∧
      HookManager.slaveRunTaskLabelDecorator ((n, h) :: reg) t e f s =
        HookManager.slaveRunTaskLabelDecorator reg t e f s) ∧
    (∀ e n h msg reg,
      Hook.slaveExecutorEnvironmentDecorator h e = HookResult.error msg →
      slaveExecutorEnvironmentStep e (n, h) = e ∧
      HookManager.slaveExecutorEnvironmentDecorator ((n, h) :: reg) e =
        HookManager.slaveExecutorEnvironmentDecorator reg e) ∧
    (∀ fid st n h msg reg,
      Hook.slaveTaskStatusDecorator h fid st = HookResult.error msg →
      slaveTaskStatusStep fid st (n, h) = st ∧
      HookManager.slaveTaskStatusDecorator ((n, h) :: reg) fid st =
        HookManager.slaveTaskStatusDecorator reg fid st) ∧
    (∀ s n h msg reg,
      Hook.slaveResourcesDecorator h s = HookResult.error msg →
      slaveResourcesStep s (n, h) = s ∧
      HookManager.slaveResourcesDecorator ((n, h) :: reg) s =
        HookManager.slaveResourcesDecorator reg s) ∧
    (∀ s n h msg reg,
      Hook.slaveAttributesDecorator h s = HookResult.error msg →
      slaveAttributesStep s (n, h) = s ∧
      HookManager.slaveAttributesDecorator ((n, h) :: reg) s =
        HookManager.slaveAttributesDecorator reg s) := by
  refine ⟨?_, ?_, ?_, ?_, ?_, ?_⟩
  · intro t f s n h msg reg hres
    have hstep : masterLaunchTaskLabelStep f s t (n, h) = t := by
      simp [masterLaunchTaskLabelStep, hres]
    exact ⟨hstep, by
      simp [HookManager.masterLaunchTaskLabelDecorator, hstep]⟩
  · intro t e f s n h msg reg hres
    have hstep : slaveRunTaskLabelStep e f s t (n, h) = t := by
      simp [slaveRunTaskLabelStep, hres]
    exact ⟨hstep, by
      simp [HookManager.slaveRunTaskLabelDecorator, hstep]⟩
  · intro e n h msg reg hres
    have hstep : slaveExecutorEnvironmentStep e (n, h) = e := by
      simp [slaveExecutorEnvironmentStep, hres]
    exact ⟨hstep, by
      simp [HookManager.slaveExecutorEnvironmentDecorator, hstep]⟩
  · intro fid st n h msg reg hres
    have hstep : slaveTaskStatusStep fid st (n, h) = st := by
      simp [slaveTaskStatusStep, hres]
    exact ⟨hstep, by
      simp [HookManager.slaveTaskStatusDecorator, hstep]⟩
  · intro s n h msg reg hres
    have hstep : slaveResourcesStep s (n, h) = s := by
      simp [slaveResourcesStep, hres]
    exact ⟨hstep, by
      simp [HookManager.slaveResourcesDecorator, hstep]⟩
  · intro s n h msg reg hres
    have hstep : slaveAttributesStep s (n, h) = s := by
      simp [slaveAttributesStep, hres]
    exact ⟨hstep, by
      simp [HookManager.slaveAttributesDecorator, hstep]⟩

/-- Witness for C2: an erroring hook in a one-hook chain leaves the
task info unchanged, and the dispatch equals the dispatch without it. -/
theorem C2_error_leaves_payload_unchanged_witness :
    masterLaunchTaskLabelStep emptyFrameworkInfo emptySlaveInfo emptyTaskInfo
      ("E1", errorLabelsHook "boom") = emptyTaskInfo ∧
    HookManager.masterLaunchTaskLabelDecorator [("E1", errorLabelsHook "boom")]
      emptyTaskInfo emptyFrameworkInfo emptySlaveInfo =
      HookManager.masterLaunchTaskLabelDecorator [] emptyTaskInfo
        emptyFrameworkInfo emptySlaveInfo :=
  C2_error_leaves_payload_unchanged.1 emptyTaskInfo emptyFrameworkInfo
    emptySlaveInfo "E1" (errorLabelsHook "boom") "boom" [] rfl

/-- Claim C5: `initialize` processes the split name list strictly in
order and stops at the first failing name: a successfully created name
is appended and processing continues, an unresolvable or uninstantiable
name stops the call with that failure while the registry keeps exactly
the entries inserted so far (no rollback); in particular loading
`"a,bad,c"` with `"a"` resolvable and `"bad"` unresolvable leaves
exactly `"a"` loaded and returns the module-not-found error. -/
theorem C5_initialize_stops_at_first_failure :
    (∀ (mm : ModuleManager) reg name rest module,
      containsHook reg name = false → mm.contains name = true →
      mm.create name = Except.ok module →
      HookManager.initializeNames mm reg (name :: rest) =
        HookManager.initializeNames mm (reg ++ [(name, module)]) rest) ∧
    (∀ (mm : ModuleManager) reg name rest,
      containsHook reg name = false → mm.contains name = false →
      HookManager.initializeNames mm reg (name :: rest) =
        (reg,
          Except.error ("No hook module named \x27" ++ name ++ "\x27 available"))) ∧
    (∀ (mm : ModuleManager) reg name rest e,
      containsHook reg name = false → mm.contains name = true →
      mm.create name = Except.error e →
      HookManager.initializeNames mm reg (name :: rest) =
        (reg,
          Except.error
            ("Failed to instantiate hook module \x27" ++ name ++ "\x27: " ++ e))) ∧
    (∀ (mm : ModuleManager) hookA,
      mm.contains "a" = true → mm.create "a" = Except.ok hookA →
      mm.contains "bad" = false →
      HookManager.initialize mm [] "a,bad,c" =
        ([("a", hookA)],
          Except.error "No hook module named \x27bad\x27 available")) := by
  refine ⟨?_, ?_, ?_, ?_⟩
  · intro mm reg name rest module hc hm hcr
    simp [HookManager.initializeNames, hc, hm, hcr]
  · intro mm reg name rest hc hm
    simp [HookManager.initializeNames, hc, hm]
  · intro mm reg name rest e hc hm hcr
    simp [HookManager.initializeNames, hc, hm, hcr]
  · intro mm hookA ha hcreate hbad
    have hsplit : stringsSplit "a,bad,c" ',' = ["a", "bad", "c"] := by decide
    have hc1 : containsHook [] "a" = false := rfl
    have hc2 : containsHook [("a", hookA)] "bad" = false := by
      simp [containsHook]
    rw [ HookManager.initialize, hsplit]
    rw [show HookManager.initializeNames mm [] ["a", "bad", "c"] =
        HookManager.initializeNames mm [("a", hookA)] ["bad", "c"] by
      simp [HookManager.initializeNames, hc1, ha, hcreate]]
    simp [HookManager.initializeNames, hc2, hbad]

/-- Witness for C5: a module manager that resolves only `"a"` loads
exactly `"a"` from the list `"a,bad,c"` and reports that `"bad"` is not
available. -/
theorem C5_initialize_stops_at_first_failure_witness :
    HookManager.initialize
      ⟨fun name => name == "a", fun _ => Except.ok noOpinionHook⟩ [] "a,bad,c" =
      ([("a", noOpinionHook)],
        Except.error "No hook module named \x27bad\x27 available") :=
  C5_initialize_stops_at_first_failure.2.2.2
    ⟨fun name => name == "a", fun _ => Except.ok noOpinionHook⟩
    noOpinionHook rfl rfl rfl

/-- Claim C7: loading a name that is already present in the registry
fails with the already-loaded error and leaves the registry, hence the
previously loaded instance for that name, unchanged. -/
theorem C7_already_loaded :
    (∀ (mm : ModuleManager) reg name rest,
      containsHook reg name = true →
      HookManager.initializeNames mm reg (name :: rest) =
        (reg,
          Except.error ("Hook module \x27" ++ name ++ "\x27 already loaded"))) ∧
    (∀ (mm : ModuleManager) reg name,
      containsHook reg name = true → stringsSplit name ',' = [name] →
      HookManager.initialize mm reg name =
        (reg,
          Except.error ("Hook module \x27" ++ name ++ "\x27 already loaded"))) := by
  constructor
  · intro mm reg name rest hc
    simp [HookManager.initializeNames, hc]
  · intro mm reg name hc hsplit
    rw [ HookManager.initialize, hsplit]
    simp [HookManager.initializeNames, hc]

/-- Witness for C7: re-loading `"a"` into a registry that already holds
`"a"` fails with the already-loaded error and returns the registry
unchanged. -/
theorem C7_already_loaded_witness :
    HookManager.initialize emptyModuleManager [("a", noOpinionHook)] "a" =
      ([("a", noOpinionHook)],
        Except.error "Hook module \x27a\x27 already loaded") :=
  C7_already_loaded.2 emptyModuleManager [("a", noOpinionHook)] "a"
    (by simp [containsHook]) (by decide)

/-- Claim C10: splitting keeps empty tokens, so `initialize("")` (and
any input with a leading, trailing or doubled comma) attempts to load a
module named `""`; on an empty registry, when no module with the empty
name exists, the call fails with the module-not-found error and loads
nothing. -/
theorem C10_empty_name_not_noop :
    stringsSplit "" ',' = [""] ∧
    stringsSplit ",a" ',' = ["", "a"] ∧
    stringsSplit "a," ',' = ["a", ""] ∧
    stringsSplit "a,,b" ',' = ["a", "", "b"] ∧
    (∀ (mm : ModuleManager), mm.contains "" = false →
      HookManager.initialize mm [] "" =
        ([], Except.error "No hook module named \x27\x27 available")) := by
  refine ⟨by decide, by decide, by decide, by decide, ?_⟩
  intro mm hmm
  have hsplit : stringsSplit "" ',' = [""] := by decide
  rw [ HookManager.initialize, hsplit]
  have hc : containsHook [] "" = false := rfl
  simp [HookManager.initializeNames, hc, hmm]

/-- Witness for C10: with no modules available, `initialize("")` on the
empty registry fails with the module-not-found error for the empty name
and loads nothing. -/
theorem C10_empty_name_not_noop_witness :
    HookManager.initialize emptyModuleManager [] "" =
      ([], Except.error "No hook module named \x27\x27 available") :=
  C10_empty_name_not_noop.2.2.2.2 emptyModuleManager rfl

theorem slaveTaskStatusStep_rest (fid : FrameworkID) (st : TaskStatus)
    (entry : String × Hook) :
    (slaveTaskStatusStep fid st entry).rest = st.rest := by
  rw [slaveTaskStatusStep]
  cases entry.2.slaveTaskStatusDecorator fid st with
  | some r =>
    by_cases hl : r.labels.isSome <;> by_cases hc : r.container_status.isSome <;>
      simp [hl, hc]
  | none => rfl
  | error msg => rfl

/-- Claim C6: a task-status hook result overwrites only the fields it
has set: when the result lacks a container status the payload's
container status is untouched, when it lacks labels the payload's
labels are untouched, a set field overwrites exactly that field, and
all other status fields survive the whole dispatch unchanged. -/
theorem C6_status_fields_overwritten_independently :
    (∀ fid st n h r,
      Hook.slaveTaskStatusDecorator h fid st = HookResult.some r →
      (r.container_status = Option.none →
        (slaveTaskStatusStep fid st (n, h)).container_status =
          st.container_status) ∧
      (r.labels = Option.none →
        (slaveTaskStatusStep fid st (n, h)).labels = st.labels) ∧
      (∀ l, r.labels = Option.some l →
        (slaveTaskStatusStep fid st (n, h)).labels = Option.some l) ∧
      (∀ c, r.container_status = Option.some c →
        (slaveTaskStatusStep fid st (n, h)).container_status =
          Option.some c)) ∧
    (∀ reg fid st,
      (HookManager.slaveTaskStatusDecorator reg fid st).rest = st.rest) := by
  constructor
  · intro fid st n h r hres
    refine ⟨?_, ?_, ?_, ?_⟩
    · intro hc
      simp only [slaveTaskStatusStep, hres, hc, Option.isSome_none,
        Bool.false_eq_true, if_false]
      by_cases hl : r.labels.isSome <;> simp [hl]
    · intro hl
      simp only [slaveTaskStatusStep, hres, hl, Option.isSome_none,
        Bool.false_eq_true, if_false]
      by_cases hc : r.container_status.isSome <;> simp [hc]
    · intro l hl
      simp only [slaveTaskStatusStep, hres, hl, Option.isSome_some, if_true]
      by_cases hc : r.container_status.isSome <;> simp [hc]
    · intro c hc
      simp only [slaveTaskStatusStep, hres, hc, Option.isSome_some, if_true]
  · intro reg fid st
    induction reg generalizing st with
    | nil => rfl
    | cons entry reg ih =>
      rw [HookManager.slaveTaskStatusDecorator, List.foldl_cons]
      rw [show List.foldl (slaveTaskStatusStep fid)
          (slaveTaskStatusStep fid st entry) reg =
        HookManager.slaveTaskStatusDecorator reg fid
          (slaveTaskStatusStep fid st entry) from rfl]
      rw [ih, slaveTaskStatusStep_rest]

/-- Witness for C6: a hook result carrying only labels leaves the
container status of the payload untouched. -/
theorem C6_status_fields_overwritten_independently_witness :
    (slaveTaskStatusStep ⟨"f1"⟩ ⟨Option.none, Option.some ⟨5⟩, 7⟩
        ("E1", statusHook (HookResult.some ⟨Option.some labelsX1, Option.none, 0⟩))).container_status =
      (⟨Option.none, Option.some ⟨5⟩, 7⟩ : TaskStatus).container_status :=
  (C6_status_fields_overwritten_independently.1 ⟨"f1"⟩
    ⟨Option.none, Option.some ⟨5⟩, 7⟩ "E1"
    (statusHook (HookResult.some ⟨Option.some labelsX1, Option.none, 0⟩))
    ⟨Option.some labelsX1, Option.none, 0⟩ rfl).1 rfl

/-- Claim C3: when every hook call of the asynchronous
docker-environment dispatch succeeds, the returned map is the fan-in
merge of the per-hook results in registry insertion order — absent
results are skipped, and for a duplicate variable name the result later
in registry order wins; in particular with E1 returning `FOO=1` and a
later E2 returning `FOO=2, BAR=x` the merged map is `FOO=2, BAR=x`. -/
theorem C3_async_merge_last_wins :
    (∀ results k, combineEnvironments results k = resultsLookupLast results k) ∧
    (∀ (reg : HookRegistry) taskInfo executorInfo cn sd md env results,
      reg.map (fun entry =>
        entry.2.slavePreLaunchDockerEnvironmentDecorator taskInfo executorInfo
          cn sd md env) = results.map Except.ok →
      HookManager.slavePreLaunchDockerEnvironmentDecorator reg taskInfo
        executorInfo cn sd md env = Except.ok (combineEnvironments results)) ∧
    (∀ (h1 h2 : Hook) taskInfo executorInfo cn sd md env,
      Hook.slavePreLaunchDockerEnvironmentDecorator h1 taskInfo executorInfo
        cn sd md env = Except.ok (Option.some ⟨[⟨"FOO", "1"⟩]⟩) →
      Hook.slavePreLaunchDockerEnvironmentDecorator h2 taskInfo executorInfo
        cn sd md env =
          Except.ok (Option.some ⟨[⟨"FOO", "2"⟩, ⟨"BAR", "x"⟩]⟩) →
      ∃ m,
        HookManager.slavePreLaunchDockerEnvironmentDecorator
          [("E1", h1), ("E2", h2)] taskInfo executorInfo cn sd md env =
            Except.ok m ∧
        m "FOO" = Option.some "2" ∧ m "BAR" = Option.some "x" ∧
        ∀ k, k ≠ "FOO" → k ≠ "BAR" → m k = Option.none) := by
  refine ⟨combineEnvironments_lookup, ?_, ?_⟩
  · intro reg taskInfo executorInfo cn sd md env results hmap
    simp only [HookManager.slavePreLaunchDockerEnvironmentDecorator, hmap,
      collectFutures_map_ok]
  · intro h1 h2 taskInfo executorInfo cn sd md env hh1 hh2
    refine ⟨combineEnvironments
      [Option.some ⟨[⟨"FOO", "1"⟩]⟩,
        Option.some ⟨[⟨"FOO", "2"⟩, ⟨"BAR", "x"⟩]⟩], ?_, ?_, ?_, ?_⟩
    · simp only [HookManager.slavePreLaunchDockerEnvironmentDecorator,
        List.map_cons, List.map_nil, hh1, hh2]
      rfl
    · decide
    · decide
    · intro k hk1 hk2
      simp [combineEnvironments, envFoldInsert, envInsert, hk1, hk2]

/-- Witness for C3: two concrete hooks returning `FOO=1` and
`FOO=2, BAR=x` merge to the map `FOO=2, BAR=x`. -/
theorem C3_async_merge_last_wins_witness :
    ∃ m,
      HookManager.slavePreLaunchDockerEnvironmentDecorator
        [("E1", dockerEnvHook (Except.ok (Option.some ⟨[⟨"FOO", "1"⟩]⟩))),
          ("E2", dockerEnvHook
            (Except.ok (Option.some ⟨[⟨"FOO", "2"⟩, ⟨"BAR", "x"⟩]⟩)))]
        Option.none emptyExecutorInfo "c" "s" "m" Option.none = Except.ok m ∧
      m "FOO" = Option.some "2" ∧ m "BAR" = Option.some "x" ∧
      ∀ k, k ≠ "FOO" → k ≠ "BAR" → m k = Option.none :=
  C3_async_merge_last_wins.2.2
    (dockerEnvHook (Except.ok (Option.some ⟨[⟨"FOO", "1"⟩]⟩)))
    (dockerEnvHook (Except.ok (Option.some ⟨[⟨"FOO", "2"⟩, ⟨"BAR", "x"⟩]⟩)))
    Option.none emptyExecutorInfo "c" "s" "m" Option.none rfl rfl

/-- Claim C4: if any hook call of the asynchronous docker-environment
dispatch fails, the whole dispatch returns a failed outcome and no
(partial) merged map is produced. -/
theorem C4_async_failure_no_partial_result :
    ∀ (reg : HookRegistry) taskInfo executorInfo cn sd md env entry e,
      entry ∈ reg →
      Hook.slavePreLaunchDockerEnvironmentDecorator entry.2 taskInfo
        executorInfo cn sd md env = Except.error e →
      (∃ e2, HookManager.slavePreLaunchDockerEnvironmentDecorator reg taskInfo
        executorInfo cn sd md env = Except.error e2) ∧
      ∀ m, HookManager.slavePreLaunchDockerEnvironmentDecorator reg taskInfo
        executorInfo cn sd md env ≠ Except.ok m := by
  intro reg taskInfo executorInfo cn sd md env entry e hmem herr
  have hfut : Except.error e ∈ reg.map (fun entry =>
      Hook.slavePreLaunchDockerEnvironmentDecorator entry.2 taskInfo
        executorInfo cn sd md env) := by
    have hmap := List.mem_map_of_mem (fun entry : String × Hook =>
      Hook.slavePreLaunchDockerEnvironmentDecorator entry.2 taskInfo
        executorInfo cn sd md env) hmem
    simpa [herr] using hmap
  obtain ⟨e2, hcol⟩ := collectFutures_error_of_mem _ e hfut
  have hdisp : HookManager.slavePreLaunchDockerEnvironmentDecorator reg
      taskInfo executorInfo cn sd md env = Except.error e2 := by
    simp only [HookManager.slavePreLaunchDockerEnvironmentDecorator, hcol]
  exact ⟨⟨e2, hdisp⟩, fun m hm => by rw [hdisp] at hm; cases hm⟩

/-- Witness for C4: a one-hook registry whose docker-environment call
fails makes the whole dispatch fail, and no merged map is returned. -/
theorem C4_async_failure_no_partial_result_witness :
    (∃ e2, HookManager.slavePreLaunchDockerEnvironmentDecorator
      [("E1", dockerEnvHook (Except.error "fail"))] Option.none
      emptyExecutorInfo "c" "s" "m" Option.none = Except.error e2) ∧
    ∀ m, HookManager.slavePreLaunchDockerEnvironmentDecorator
      [("E1", dockerEnvHook (Except.error "fail"))] Option.none
      emptyExecutorInfo "c" "s" "m" Option.none ≠ Except.ok m :=
  C4_async_failure_no_partial_result
    [("E1", dockerEnvHook (Except.error "fail"))] Option.none
    emptyExecutorInfo "c" "s" "m" Option.none
    ("E1", dockerEnvHook (Except.error "fail")) "fail"
    (List.mem_singleton.mpr rfl) rfl
